import Mathlib

/-!
Verification of the marrow deck-list converter (src/main.rs) against its
natural-language specification.

The Rust program reads a plain-text deck list (lines of the form
`<count>x<card name>`), parses each line with a character-level state
machine (`parse_line`), and assembles a Tabletop-Simulator save document
(`SaveState::new_for_deck` / `generate_deck_data`).

Shallow embedding conventions:
* `i64` values are modelled as `Int`, `usize` values as `Nat`.
* `HashMap<i64, CustomDeckState>` is modelled as an association list with
  insert-replaces-existing semantics (`hmInsert`); the program only ever
  inserts fresh keys, so insertion order is preserved.
* `Uuid::new_v4` produces a fresh random identifier used nowhere else in
  the program's logic; the `guid` field, and the `f64`-valued fields
  (`transform`, `alt_look_angle`, `color_difuse`, `gravity`, `play_area`),
  are omitted from the embedding because no observable claim depends on
  them and floating point is outside the model.
* Rust panics (`expect`, reachable in `parse_line` when the quantity
  buffer fails to parse) are modelled by an explicit `ParseResult.panic`
  constructor carrying the panic message.
* `str::char_indices` yields byte offsets, modelled by advancing an index
  by `Char.utf8Size` per character.
-/

namespace Marrow

/-- The digit alternatives matched by the `Numbering` state of the Rust
state machine (the pattern `'0' | '1' | ... | '9'`). -/
def isAsciiDigit (c : Char) : Bool :=
  c = '0' || c = '1' || c = '2' || c = '3' || c = '4' ||
  c = '5' || c = '6' || c = '7' || c = '8' || c = '9'

/-- Rust `char::is_whitespace`: the Unicode White_Space property, used by
`str::trim`. -/
def isRustWhitespace (c : Char) : Bool :=
  c.toNat = 0x09 || c.toNat = 0x0A || c.toNat = 0x0B || c.toNat = 0x0C ||
  c.toNat = 0x0D || c.toNat = 0x20 || c.toNat = 0x85 || c.toNat = 0xA0 ||
  c.toNat = 0x1680 || (0x2000 ≤ c.toNat && c.toNat ≤ 0x200A) ||
  c.toNat = 0x2028 || c.toNat = 0x2029 || c.toNat = 0x202F ||
  c.toNat = 0x205F || c.toNat = 0x3000

/-- Rust `str::trim`: remove leading and trailing Unicode whitespace. -/
def rustTrim (s : String) : String :=
  String.mk (((s.data.dropWhile isRustWhitespace).reverse.dropWhile
    isRustWhitespace).reverse)

/-- Numeric value of a digit string (most significant digit first). -/
def digitsVal (cs : List Char) : Nat :=
  cs.foldl (fun a c => a * 10 + (c.toNat - 48)) 0

/-- Rust `str::parse::<i64>()` restricted to the strings the state machine
can produce: the quantity buffer only ever receives ASCII digits, so sign
handling is unreachable.  The empty string and values exceeding
`i64::MAX` fail to parse (Rust returns `Err`, which `expect` turns into a
panic). -/
def parseI64 (s : String) : Option Int :=
  if s.data = [] then none
  else if s.data.all isAsciiDigit then
    if digitsVal s.data ≤ 9223372036854775807 then
      some ((digitsVal s.data : Nat) : Int)
    else none
  else none

/-- Rust `get_filegarden_link`: embed the name in the template URL after
`name.replace(' ', "").replace('ä', "a")` (delete every space, then
replace every `ä` with `a`). -/
def get_filegarden_link (name : String) : String :=
  "https://file.garden/ZJSEzoaUL3bz8vYK/bloodlesscards/" ++
    String.mk ((name.data.filter (fun c => !(c = ' '))).map
      (fun c => if c = 'ä' then 'a' else c)) ++ ".png"

/-- Rust struct `CustomDeckState` (the per-distinct-card metadata
record). -/
structure CustomDeckState where
  face_url : String
  back_url : String
  num_width : Int
  num_height : Int
  back_is_hidden : Bool
  unique_back : Bool
  type : Int
deriving DecidableEq, Repr

/-- The `card_data` record literal built at the end of `parse_line`, as a
function of the trimmed name. -/
def mkCardData (name : String) : CustomDeckState where
  face_url := get_filegarden_link name
  back_url := "https://file.garden/ZJSEzoaUL3bz8vYK/bloodlesscards/00%20back.png"
  num_width := 1
  num_height := 1
  back_is_hidden := true
  unique_back := false
  type := 0

/-- Rust enum `ParserState`. -/
inductive ParserState where
  | Numbering
  | Naming
  | Exing
deriving DecidableEq, Repr

/-- Rust enum `Error` (the only variant is `UnexpectedChar`). -/
inductive Error where
  | UnexpectedChar (obtained : Char) (expected : List String)
deriving DecidableEq, Repr

/-- Rust struct `AtColumn`: an error tagged with a 1-based column. -/
structure AtColumn where
  error : Error
  column : Nat
deriving DecidableEq, Repr

/-- Rust struct `AtRow`: a column-tagged error further tagged with a
1-based row. -/
structure AtRow where
  column : AtColumn
  row : Nat
deriving DecidableEq, Repr

/-- The `for (idx, char) in string.char_indices()` loop of `parse_line`:
`idx` is the byte offset of the current character, the accumulators
`number_str` and `name` mirror the two `String` buffers, and an error is
reported at column `idx + 1`. -/
def parseLoop : List Char → Nat → ParserState → List Char → List Char →
    Except AtColumn (List Char × List Char)
  | [], _, _, number_str, name => .ok (number_str, name)
  | c :: cs, idx, st, number_str, name =>
    match st with
    | .Numbering =>
      if isAsciiDigit c then
        parseLoop cs (idx + c.utf8Size) .Numbering (number_str ++ [c]) name
      else if c = ' ' || c = '\t' then
        parseLoop cs (idx + c.utf8Size) .Exing number_str name
      else if c = 'x' then
        parseLoop cs (idx + c.utf8Size) .Naming number_str name
      else
        .error ⟨.UnexpectedChar c ["`x` (number separator)", "a number",
          "a space", "tab"], idx + 1⟩
    | .Exing =>
      if c = ' ' || c = '\t' then
        parseLoop cs (idx + c.utf8Size) .Exing number_str name
      else if c = 'x' then
        parseLoop cs (idx + c.utf8Size) .Naming number_str name
      else
        .error ⟨.UnexpectedChar c ["`x` (number separator)", "space",
          "tab"], idx + 1⟩
    | .Naming => parseLoop cs (idx + c.utf8Size) .Naming number_str (name ++ [c])

/-- Result of `parse_line`, with Rust's `expect` panic made explicit. -/
inductive ParseResult where
  | ok (count : Int) (card : CustomDeckState)
  | err (e : AtColumn)
  | panic (msg : String)
deriving DecidableEq, Repr

/-- Rust `parse_line`: run the state machine over the line, trim the name
buffer, build the card metadata, and parse the quantity buffer
(`expect("couldn\x27t parse number")` panics when that parse fails). -/
def parse_line (string : String) : ParseResult :=
  match parseLoop string.data 0 ParserState.Numbering [] [] with
  | .error e => ParseResult.err e
  | .ok (number_str, name) =>
    match parseI64 (String.mk number_str) with
    | some n => ParseResult.ok n (mkCardData (rustTrim (String.mk name)))
    | none => ParseResult.panic "couldn\x27t parse number"

/-- Association list standing in for `HashMap<i64, CustomDeckState>`:
`insert` replaces the value of an existing key and otherwise appends. -/
abbrev HMap := List (Int × CustomDeckState)

/-- `HashMap::insert`. -/
def hmInsert (m : HMap) (k : Int) (v : CustomDeckState) : HMap :=
  if m.any (fun p => p.1 = k) then
    m.map (fun p => if p.1 = k then (k, v) else p)
  else m ++ [(k, v)]

/-- Rust struct `ObjectState`, without the omitted `guid` and `f64`
fields (see the module comment). -/
structure ObjectState where
  name : String
  nickname : String
  description : String
  gm_notes : String
  layout_group_sort_index : Int
  value : Int
  locked : Bool
  grid : Bool
  snap : Bool
  ignore_fow : Bool
  measure_movement : Bool
  drag_selectable : Bool
  autoraise : Bool
  sticky : Bool
  tooltip : Bool
  grid_projection : Bool
  hide_when_face_down : Bool
  hands : Bool
  card_id : Option Int
  sideways_card : Bool
  deck_ids : Option (List Int)
  custom_deck : HMap
  lua_script : String
  lua_script_state : String
  xml_ui : String
  contained_objects : Option (List ObjectState)

/-- The `ObjectState` literal pushed onto `contained_objects` for one
physical copy of the card with deck index `idx` (its `card_id` is
`idx * 100`). -/
def cardObject (idx : Int) (card : CustomDeckState) : ObjectState where
  name := "CardCustom"
  nickname := ""
  description := ""
  gm_notes := ""
  layout_group_sort_index := 0
  value := 0
  locked := false
  grid := true
  snap := true
  ignore_fow := false
  measure_movement := false
  drag_selectable := true
  autoraise := true
  sticky := true
  tooltip := true
  grid_projection := false
  hide_when_face_down := true
  hands := true
  card_id := some (idx * 100)
  sideways_card := false
  deck_ids := none
  custom_deck := [(idx, card)]
  lua_script := ""
  lua_script_state := ""
  xml_ui := ""
  contained_objects := none

/-- The `for (idx, (amt, card))` loop of `generate_deck_data`.  Rust
enumerates the deck and maps each index to `(idx + 1) as i64`, so `idx`
here starts at 1.  `for _ in 0..amt` runs `amt.toNat` times (zero times
when `amt ≤ 0`); each iteration pushes `id` onto `card_ids` and one card
object onto `contained_objects`, and the copies of one line are
identical (the omitted random `guid` aside), so the pushes amount to
`List.replicate`. -/
def generateDeckLoop : Int → List (Int × CustomDeckState) → List Int →
    HMap → List ObjectState → List Int × HMap × List ObjectState
  | _, [], card_ids, custom_deck, contained_objects =>
    (card_ids, custom_deck, contained_objects)
  | idx, (amt, card) :: rest, card_ids, custom_deck, contained_objects =>
    let id := idx * 100
    generateDeckLoop (idx + 1) rest
      (card_ids ++ List.replicate amt.toNat id)
      (hmInsert custom_deck idx card)
      (contained_objects ++ List.replicate amt.toNat (cardObject idx card))

/-- Rust `generate_deck_data`. -/
def generate_deck_data (deck : List (Int × CustomDeckState)) :
    List Int × HMap × List ObjectState :=
  generateDeckLoop 1 deck [] [] []

/-- The deck-container `ObjectState` literal built in
`SaveState::new_for_deck`. -/
def deckObject (deck_ids : List Int) (custom_deck : HMap)
    (contained_objects : List ObjectState) : ObjectState where
  name := "Deck"
  nickname := ""
  description := ""
  gm_notes := ""
  layout_group_sort_index := 0
  value := 0
  locked := false
  grid := true
  snap := true
  ignore_fow := false
  measure_movement := false
  drag_selectable := true
  autoraise := true
  sticky := true
  tooltip := true
  grid_projection := false
  hide_when_face_down := true
  hands := false
  card_id := none
  sideways_card := false
  deck_ids := some deck_ids
  custom_deck := custom_deck
  lua_script := ""
  lua_script_state := ""
  xml_ui := ""
  contained_objects := some contained_objects

/-- Rust struct `SaveState`, without the omitted `f64` fields `gravity`
and `play_area`. -/
structure SaveState where
  save_name : String
  date : String
  version_number : String
  game_mode : String
  game_type : String
  game_complexity : String
  tags : List String
  table : String
  sky : String
  note : String
  tab_states : List (String × String)
  lua_script : String
  lua_script_state : String
  xml_ui : String
  object_states : List ObjectState

/-- Rust `SaveState::new_for_deck`. -/
def SaveState.new_for_deck (deck : List (Int × CustomDeckState)) : SaveState :=
  let (deck_ids, custom_deck, contained_objects) := generate_deck_data deck
  { save_name := ""
    date := ""
    version_number := ""
    game_mode := ""
    game_type := ""
    game_complexity := ""
    tags := []
    table := ""
    sky := ""
    note := ""
    tab_states := []
    lua_script := ""
    lua_script_state := ""
    xml_ui := ""
    object_states := [deckObject deck_ids custom_deck contained_objects] }

/-- Rust `impl Display for Error`. -/
def Error.fmt : Error → String
  | .UnexpectedChar obtained expected =>
    "\n Obtained character `" ++ String.mk [obtained] ++
      "`, expected one of the following: " ++
      String.join (expected.map (fun e => "\n - " ++ e))

/-- Rust `impl Display for AtRow`: the format string is
`"Error at line {}, column {}: {}"` but the arguments passed are
`self.column.column`, `self.row`, `self.column.error` — the column is
printed in the `line` slot and the row in the `column` slot. -/
def AtRow.fmt (a : AtRow) : String :=
  "Error at line " ++ toString a.column.column ++ ", column " ++
    toString a.row ++ ": " ++ a.column.error.fmt

/-- Outcome of one run of `main` over the input lines: either the
document is serialized and written to the output path, or the collected
errors are printed and nothing is written, or a panic aborts the
process. -/
inductive RunResult where
  | wrote (doc : SaveState)
  | reported (errs : List AtRow)
  | panicked (msg : String)

/-- The read-parse loop of `main` followed by the `errors.is_empty()`
branch: `line_idx` is incremented before each line is processed (rows
are 1-based), successfully parsed cards and errors are pushed in order,
and a panic inside `parse_line` aborts the run. -/
def runLoop : List String → Nat → List (Int × CustomDeckState) →
    List AtRow → RunResult
  | [], _, cards, errors =>
    if errors.isEmpty then RunResult.wrote (SaveState.new_for_deck cards)
    else RunResult.reported errors
  | line :: rest, line_idx, cards, errors =>
    match parse_line line with
    | .ok n card => runLoop rest (line_idx + 1) (cards ++ [(n, card)]) errors
    | .err e => runLoop rest (line_idx + 1) cards (errors ++ [⟨e, line_idx⟩])
    | .panic msg => RunResult.panicked msg

/-- Rust `main`, as a function of the input file's lines. -/
def runOnLines (lines : List String) : RunResult :=
  runLoop lines 1 [] []

/-- Whether a parse outcome is a panic. -/
def ParseResult.isPanic : ParseResult → Bool
  | .panic _ => true
  | _ => false

/-- The syntax errors `main` collects from the lines, rows counted from
`idx`. -/
def lineErrsFrom : Nat → List String → List AtRow
  | _, [] => []
  | idx, l :: ls =>
    match parse_line l with
    | .err e => ⟨e, idx⟩ :: lineErrsFrom (idx + 1) ls
    | _ => lineErrsFrom (idx + 1) ls

/-- The successfully parsed card entries of the lines, in order. -/
def okCards (lines : List String) : List (Int × CustomDeckState) :=
  lines.filterMap (fun l =>
    match parse_line l with
    | .ok n card => some (n, card)
    | _ => none)

/-- Closed form of the `card_ids` list produced by `generate_deck_data`
when the loop starts at deck index `i`: each entry contributes
`amt.toNat` copies of `100 ×` its index, indices counting up from `i`. -/
def deckIdsSpec (i : Int) : List (Int × CustomDeckState) → List Int
  | [] => []
  | (amt, _) :: rest => List.replicate amt.toNat (i * 100) ++ deckIdsSpec (i + 1) rest

/-- Closed form of the `custom_deck` map: one record per entry, keyed by
the entry's deck index, indices counting up from `i`. -/
def customDeckSpec (i : Int) : List (Int × CustomDeckState) → HMap
  | [] => []
  | (_, card) :: rest => (i, card) :: customDeckSpec (i + 1) rest

/-- Closed form of the `contained_objects` list: `amt.toNat` card objects
per entry. -/
def objsSpec (i : Int) : List (Int × CustomDeckState) → List ObjectState
  | [] => []
  | (amt, card) :: rest =>
    List.replicate amt.toNat (cardObject i card) ++ objsSpec (i + 1) rest

/-- Specification scan for the error behaviour of the state machine: the
0-based position, counted in characters (not bytes), of the first
character the machine rejects, if any.  In `Numbering` a digit continues,
whitespace moves to `Exing`, `x` ends the scan (no error can follow once
`Naming` is reached); in `Exing` only whitespace continues and a digit is
rejected too. -/
def scanReject : List Char → ParserState → Option Nat
  | [], _ => none
  | c :: cs, .Numbering =>
    if isAsciiDigit c then (scanReject cs .Numbering).map (· + 1)
    else if c = ' ' || c = '\t' then (scanReject cs .Exing).map (· + 1)
    else if c = 'x' then none
    else some 0
  | c :: cs, .Exing =>
    if c = ' ' || c = '\t' then (scanReject cs .Exing).map (· + 1)
    else if c = 'x' then none
    else some 0
  | _ :: _, .Naming => none

/-- Character position of the first rejected character of a line. -/
def firstRejected (s : String) : Option Nat :=
  scanReject s.data ParserState.Numbering

/-- Inserting a key not already present appends the pair. -/
theorem hmInsert_fresh (m : HMap) (k : Int) (v : CustomDeckState)
    (h : ∀ p ∈ m, p.1 ≠ k) : hmInsert m k v = m ++ [(k, v)] := by
  unfold hmInsert
  rw [if_neg]
  simp only [List.any_eq_true, decide_eq_true_eq, not_exists]
  rintro p ⟨hp, hpk⟩
  exact h p hp hpk

/-- The `generate_deck_data` loop refines the three closed forms, as long
as every key already in the map is below the next index (so insertions
are always fresh). -/
theorem generateDeckLoop_spec (rest : List (Int × CustomDeckState)) :
    ∀ (i : Int) (ids : List Int) (cd : HMap) (objs : List ObjectState),
    (∀ p ∈ cd, p.1 < i) →
    generateDeckLoop i rest ids cd objs =
      (ids ++ deckIdsSpec i rest, cd ++ customDeckSpec i rest,
        objs ++ objsSpec i rest) := by
  induction rest with
  | nil =>
    intro i ids cd objs _
    simp [generateDeckLoop, deckIdsSpec, customDeckSpec, objsSpec]
  | cons hd tl ih =>
    obtain ⟨amt, card⟩ := hd
    intro i ids cd objs hlt
    have hfresh : ∀ p ∈ cd, p.1 ≠ i := fun p hp => ne_of_lt (hlt p hp)
    have hnext : ∀ p ∈ cd ++ [(i, card)], p.1 < i + 1 := by
      intro p hp
      rcases List.mem_append.mp hp with h | h
      · exact lt_trans (hlt p h) (by omega)
      · rcases List.mem_singleton.mp h with rfl
        omega
    simp only [generateDeckLoop, hmInsert_fresh cd i card hfresh,
      ih (i + 1) _ _ _ hnext, deckIdsSpec, customDeckSpec, objsSpec]
    simp [List.append_assoc]

/-- `generate_deck_data` in closed form. -/
theorem generate_deck_data_eq (deck : List (Int × CustomDeckState)) :
    generate_deck_data deck =
      (deckIdsSpec 1 deck, customDeckSpec 1 deck, objsSpec 1 deck) := by
  unfold generate_deck_data
  rw [generateDeckLoop_spec deck 1 [] [] [] (by simp)]
  simp

/-- The `card_id` fields of the emitted card objects line up with the
`card_ids` list. -/
theorem objsSpec_card_ids (deck : List (Int × CustomDeckState)) :
    ∀ i, (objsSpec i deck).map ObjectState.card_id =
      (deckIdsSpec i deck).map some := by
  induction deck with
  | nil => intro i; rfl
  | cons hd tl ih =>
    obtain ⟨amt, card⟩ := hd
    intro i
    simp [objsSpec, deckIdsSpec, List.map_replicate, cardObject, ih (i + 1)]

/-- The metadata map in closed form is the input entries enumerated from
index 1 (one record per entry, in order). -/
theorem customDeckSpec_enumFrom (deck : List (Int × CustomDeckState)) :
    ∀ n : Nat, customDeckSpec (n : Int) deck =
      (List.enumFrom n deck).map (fun p => ((p.1 : Int), p.2.2)) := by
  induction deck with
  | nil => intro n; rfl
  | cons hd tl ih =>
    obtain ⟨amt, card⟩ := hd
    intro n
    rw [show customDeckSpec (n : Int) ((amt, card) :: tl) =
      ((n : Int), card) :: customDeckSpec ((n : Int) + 1) tl from rfl]
    rw [show ((n : Int) + 1) = ((n + 1 : Nat) : Int) by push_cast; ring]
    rw [ih (n + 1)]
    rfl

/-- Number of emitted card objects: the sum of the clamped quantities. -/
theorem objsSpec_length (deck : List (Int × CustomDeckState)) :
    ∀ i, (objsSpec i deck).length = (deck.map (fun p => p.1.toNat)).sum := by
  induction deck with
  | nil => intro i; rfl
  | cons hd tl ih =>
    obtain ⟨amt, card⟩ := hd
    intro i
    simp [objsSpec, ih (i + 1)]

/-- With all quantities nonnegative, the clamped sum is the plain sum. -/
theorem sum_toNat_eq (deck : List (Int × CustomDeckState))
    (h : ∀ p ∈ deck, (0 : Int) ≤ p.1) :
    (((deck.map (fun p => p.1.toNat)).sum : Nat) : Int) =
      (deck.map Prod.fst).sum := by
  induction deck with
  | nil => rfl
  | cons hd tl ih =>
    have h1 : (0 : Int) ≤ hd.1 := h hd (List.mem_cons_self hd tl)
    have h2 := ih (fun p hp => h p (List.mem_cons_of_mem hd hp))
    simp only [List.map_cons, List.sum_cons, Nat.cast_add,
      Int.toNat_of_nonneg h1, h2]

/-- Every character accepted by the `Numbering` state's digit arm is
ASCII, hence one UTF-8 byte wide. -/
theorem utf8Size_of_digit (c : Char) (h : isAsciiDigit c = true) :
    c.utf8Size = 1 := by
  simp only [isAsciiDigit, Bool.or_eq_true, decide_eq_true_eq] at h
  rcases h with ((((((((h | h) | h) | h) | h) | h) | h) | h) | h) | h <;>
    subst h <;> rfl

/-- `Naming` consumes the remaining characters into the name buffer. -/
theorem parseLoop_naming (cs : List Char) :
    ∀ idx num name, parseLoop cs idx ParserState.Naming num name =
      Except.ok (num, name ++ cs) := by
  induction cs with
  | nil => intro idx num name; simp [parseLoop]
  | cons c cs ih =>
    intro idx num name
    rw [show parseLoop (c :: cs) idx ParserState.Naming num name =
      parseLoop cs (idx + c.utf8Size) ParserState.Naming num (name ++ [c]) from rfl]
    rw [ih]
    simp

/-- One digit step in `Numbering`. -/
theorem parseLoop_num_digit (c : Char) (cs : List Char) (idx : Nat)
    (num name : List Char) (h : isAsciiDigit c = true) :
    parseLoop (c :: cs) idx ParserState.Numbering num name =
      parseLoop cs (idx + 1) ParserState.Numbering (num ++ [c]) name := by
  have h1 : c.utf8Size = 1 := utf8Size_of_digit c h
  simp [parseLoop, h, h1]

/-- One whitespace step in `Numbering` (transition to `Exing`). -/
theorem parseLoop_num_ws (c : Char) (cs : List Char) (idx : Nat)
    (num name : List Char) (h : (c = ' ' || c = '\t') = true) :
    parseLoop (c :: cs) idx ParserState.Numbering num name =
      parseLoop cs (idx + 1) ParserState.Exing num name := by
  have hc : c = ' ' ∨ c = '\t' := by simpa using h
  rcases hc with rfl | rfl <;> rfl

/-- The separator step in `Numbering` (transition to `Naming`). -/
theorem parseLoop_num_x (cs : List Char) (idx : Nat) (num name : List Char) :
    parseLoop ('x' :: cs) idx ParserState.Numbering num name =
      parseLoop cs (idx + 1) ParserState.Naming num name := rfl

/-- The rejecting step in `Numbering`. -/
theorem parseLoop_num_reject (c : Char) (cs : List Char) (idx : Nat)
    (num name : List Char) (h1 : isAsciiDigit c = false)
    (h2 : (c = ' ' || c = '\t') = false) (h3 : ¬ c = 'x') :
    parseLoop (c :: cs) idx ParserState.Numbering num name =
      Except.error ⟨Error.UnexpectedChar c ["`x` (number separator)",
        "a number", "a space", "tab"], idx + 1⟩ := by
  simp [parseLoop, h1, h2, h3]

/-- One whitespace step in `Exing`. -/
theorem parseLoop_ex_ws (c : Char) (cs : List Char) (idx : Nat)
    (num name : List Char) (h : (c = ' ' || c = '\t') = true) :
    parseLoop (c :: cs) idx ParserState.Exing num name =
      parseLoop cs (idx + 1) ParserState.Exing num name := by
  have hc : c = ' ' ∨ c = '\t' := by simpa using h
  rcases hc with rfl | rfl <;> rfl

/-- The separator step in `Exing` (transition to `Naming`). -/
theorem parseLoop_ex_x (cs : List Char) (idx : Nat) (num name : List Char) :
    parseLoop ('x' :: cs) idx ParserState.Exing num name =
      parseLoop cs (idx + 1) ParserState.Naming num name := rfl

/-- The rejecting step in `Exing`. -/
theorem parseLoop_ex_reject (c : Char) (cs : List Char) (idx : Nat)
    (num name : List Char) (h2 : (c = ' ' || c = '\t') = false)
    (h3 : ¬ c = 'x') :
    parseLoop (c :: cs) idx ParserState.Exing num name =
      Except.error ⟨Error.UnexpectedChar c ["`x` (number separator)",
        "space", "tab"], idx + 1⟩ := by
  simp [parseLoop, h2, h3]

/-- A digit prefix is accumulated into the quantity buffer one byte per
character. -/
theorem parseLoop_numbering_digits (digits : List Char) :
    ∀ (tail : List Char) (idx : Nat) (num name : List Char),
    (∀ c ∈ digits, isAsciiDigit c = true) →
    parseLoop (digits ++ tail) idx ParserState.Numbering num name =
      parseLoop tail (idx + digits.length) ParserState.Numbering
        (num ++ digits) name := by
  induction digits with
  | nil => intro tail idx num name _; simp
  | cons d ds ih =>
    intro tail idx num name h
    have hd : isAsciiDigit d = true := h d (List.mem_cons_self d ds)
    rw [List.cons_append, parseLoop_num_digit d (ds ++ tail) idx num name hd]
    rw [ih tail (idx + 1) (num ++ [d]) name
      (fun c hc => h c (List.mem_cons_of_mem d hc))]
    simp only [List.append_assoc, List.singleton_append, List.length_cons]
    rw [show idx + 1 + ds.length = idx + (ds.length + 1) by omega]

/-- Whitespace then the separator, from `Numbering` or from `Exing`,
leads to `Naming` which consumes the rest of the line. -/
theorem parseLoop_ws_x (ws : List Char) :
    ∀ (rest : List Char) (idx : Nat) (num name : List Char),
    (∀ c ∈ ws, c = ' ' ∨ c = '\t') →
    parseLoop (ws ++ 'x' :: rest) idx ParserState.Numbering num name =
      Except.ok (num, name ++ rest) ∧
    parseLoop (ws ++ 'x' :: rest) idx ParserState.Exing num name =
      Except.ok (num, name ++ rest) := by
  induction ws with
  | nil =>
    intro rest idx num name _
    constructor
    · rw [List.nil_append, parseLoop_num_x]
      exact parseLoop_naming rest (idx + 1) num name
    · rw [List.nil_append, parseLoop_ex_x]
      exact parseLoop_naming rest (idx + 1) num name
  | cons w ws ih =>
    intro rest idx num name h
    have hw : (w = ' ' || w = '\t') = true := by
      rcases h w (List.mem_cons_self w ws) with rfl | rfl <;> rfl
    have htl := ih rest (idx + 1) num name
      (fun c hc => h c (List.mem_cons_of_mem w hc))
    constructor
    · rw [List.cons_append, parseLoop_num_ws w _ _ _ _ hw]
      exact htl.2
    · rw [List.cons_append, parseLoop_ex_ws w _ _ _ _ hw]
      exact htl.2

/-- A nonempty all-digit buffer within the `i64` range parses to its
numeric value. -/
theorem parseI64_digits (digits : List Char) (h1 : digits ≠ [])
    (h2 : ∀ c ∈ digits, isAsciiDigit c = true)
    (h4 : digitsVal digits ≤ 9223372036854775807) :
    parseI64 (String.mk digits) = some ((digitsVal digits : Nat) : Int) := by
  unfold parseI64
  rw [show (String.mk digits).data = digits from rfl]
  rw [if_neg h1, if_pos (List.all_eq_true.mpr h2), if_pos h4]

/-- Correspondence between the byte-indexed state machine and the
character-counting specification scan: from a non-`Naming` state at byte
offset `idx`, the machine errors exactly when the scan rejects, and the
reported column is `idx + p + 1` where `p` is the *character* position of
the rejected character — every character accepted before it (digits,
space, tab) is one byte wide, so bytes and characters advance
together. -/
theorem parseLoop_scanReject (cs : List Char) :
    ∀ (st : ParserState) (idx : Nat) (num name : List Char),
    st ≠ ParserState.Naming →
    (∀ p, scanReject cs st = some p → ∃ a exp,
      parseLoop cs idx st num name =
        Except.error ⟨Error.UnexpectedChar a exp, idx + p + 1⟩) ∧
    (scanReject cs st = none →
      ∃ r, parseLoop cs idx st num name = Except.ok r) := by
  induction cs with
  | nil =>
    intro st idx num name _
    constructor
    · intro p hp
      cases st <;> exact absurd hp (by simp [scanReject])
    · intro _
      exact ⟨(num, name), rfl⟩
  | cons c cs ih =>
    intro st idx num name hst
    cases st with
    | Naming => exact absurd rfl hst
    | Numbering =>
      by_cases hdig : isAsciiDigit c = true
      · have hscan : scanReject (c :: cs) ParserState.Numbering =
            (scanReject cs ParserState.Numbering).map (· + 1) := by
          simp [scanReject, hdig]
        have hstep := parseLoop_num_digit c cs idx num name hdig
        have htl := ih ParserState.Numbering (idx + 1) (num ++ [c]) name
          (by simp)
        constructor
        · intro p hp
          rw [hscan] at hp
          obtain ⟨q, hq, hpq⟩ := Option.map_eq_some'.mp hp
          obtain ⟨a, exp, ha⟩ := htl.1 q hq
          refine ⟨a, exp, ?_⟩
          rw [hstep, ha, show idx + 1 + q + 1 = idx + (q + 1) + 1 by omega, hpq]
        · intro hn
          rw [hscan, Option.map_eq_none'] at hn
          obtain ⟨r, hr⟩ := htl.2 hn
          exact ⟨r, by rw [hstep, hr]⟩
      · have hdig' : isAsciiDigit c = false := by
          cases hh : isAsciiDigit c
          · rfl
          · exact absurd hh hdig
        by_cases hws : (c = ' ' || c = '\t') = true
        · have hscan : scanReject (c :: cs) ParserState.Numbering =
              (scanReject cs ParserState.Exing).map (· + 1) := by
            simp [scanReject, hdig', hws]
          have hstep := parseLoop_num_ws c cs idx num name hws
          have htl := ih ParserState.Exing (idx + 1) num name (by simp)
          constructor
          · intro p hp
            rw [hscan] at hp
            obtain ⟨q, hq, hpq⟩ := Option.map_eq_some'.mp hp
            obtain ⟨a, exp, ha⟩ := htl.1 q hq
            refine ⟨a, exp, ?_⟩
            rw [hstep, ha, show idx + 1 + q + 1 = idx + (q + 1) + 1 by omega,
              hpq]
          · intro hn
            rw [hscan, Option.map_eq_none'] at hn
            obtain ⟨r, hr⟩ := htl.2 hn
            exact ⟨r, by rw [hstep, hr]⟩
        · have hws' : (c = ' ' || c = '\t') = false := by
            cases hh : (c = ' ' || c = '\t')
            · rfl
            · exact absurd hh hws
          by_cases hx : c = 'x'
          · subst hx
            have hscan : scanReject ('x' :: cs) ParserState.Numbering =
                none := by
              simp [scanReject, hdig', hws']
            constructor
            · intro p hp
              rw [hscan] at hp
              exact absurd hp (by simp)
            · intro _
              rw [parseLoop_num_x]
              exact ⟨(num, name ++ cs), parseLoop_naming cs (idx + 1) num name⟩
          · have hscan : scanReject (c :: cs) ParserState.Numbering =
                some 0 := by
              simp [scanReject, hdig', hws', hx]
            constructor
            · intro p hp
              rw [hscan] at hp
              obtain rfl : (0 : Nat) = p := Option.some.inj hp
              exact ⟨c, _, by
                rw [parseLoop_num_reject c cs idx num name hdig' hws' hx]⟩
            · intro hn
              rw [hscan] at hn
              exact absurd hn (by simp)
    | Exing =>
      by_cases hws : (c = ' ' || c = '\t') = true
      · have hscan : scanReject (c :: cs) ParserState.Exing =
            (scanReject cs ParserState.Exing).map (· + 1) := by
          simp [scanReject, hws]
        have hstep := parseLoop_ex_ws c cs idx num name hws
        have htl := ih ParserState.Exing (idx + 1) num name (by simp)
        constructor
        · intro p hp
          rw [hscan] at hp
          obtain ⟨q, hq, hpq⟩ := Option.map_eq_some'.mp hp
          obtain ⟨a, exp, ha⟩ := htl.1 q hq
          refine ⟨a, exp, ?_⟩
          rw [hstep, ha, show idx + 1 + q + 1 = idx + (q + 1) + 1 by omega,
            hpq]
        · intro hn
          rw [hscan, Option.map_eq_none'] at hn
          obtain ⟨r, hr⟩ := htl.2 hn
          exact ⟨r, by rw [hstep, hr]⟩
      · have hws' : (c = ' ' || c = '\t') = false := by
          cases hh : (c = ' ' || c = '\t')
          · rfl
          · exact absurd hh hws
        by_cases hx : c = 'x'
        · subst hx
          have hscan : scanReject ('x' :: cs) ParserState.Exing = none := by
            simp [scanReject, hws']
          constructor
          · intro p hp
            rw [hscan] at hp
            exact absurd hp (by simp)
          · intro _
            rw [parseLoop_ex_x]
            exact ⟨(num, name ++ cs), parseLoop_naming cs (idx + 1) num name⟩
        · have hscan : scanReject (c :: cs) ParserState.Exing = some 0 := by
            simp [scanReject, hws', hx]
          constructor
          · intro p hp
            rw [hscan] at hp
            obtain rfl : (0 : Nat) = p := Option.some.inj hp
            exact ⟨c, _, by
              rw [parseLoop_ex_reject c cs idx num name hws' hx]⟩
          · intro hn
            rw [hscan] at hn
            exact absurd hn (by simp)

/-- The read-parse loop of `main` in closed form, provided no line's
parse panics: every line is processed, cards and row-tagged errors
accumulate in order, and at the end the document is built exactly when
no error was collected. -/
theorem runLoop_spec (lines : List String) :
    ∀ (idx : Nat) (cards : List (Int × CustomDeckState))
      (errors : List AtRow),
    (∀ l ∈ lines, (parse_line l).isPanic = false) →
    runLoop lines idx cards errors =
      (if (errors ++ lineErrsFrom idx lines).isEmpty then
        RunResult.wrote (SaveState.new_for_deck (cards ++ okCards lines))
      else RunResult.reported (errors ++ lineErrsFrom idx lines)) := by
  induction lines with
  | nil =>
    intro idx cards errors _
    simp [runLoop, lineErrsFrom, okCards]
  | cons l ls ih =>
    intro idx cards errors h
    have hl := h l (List.mem_cons_self l ls)
    have htl := fun c hc => h c (List.mem_cons_of_mem l hc)
    cases hpl : parse_line l with
    | ok n card =>
      rw [show runLoop (l :: ls) idx cards errors =
          runLoop ls (idx + 1) (cards ++ [(n, card)]) errors by
        simp [runLoop, hpl]]
      rw [ih (idx + 1) (cards ++ [(n, card)]) errors htl]
      simp [lineErrsFrom, okCards, hpl, List.append_assoc]
    | err e =>
      rw [show runLoop (l :: ls) idx cards errors =
          runLoop ls (idx + 1) cards (errors ++ [AtRow.mk e idx]) by
        simp [runLoop, hpl]]
      rw [ih (idx + 1) cards (errors ++ [AtRow.mk e idx]) htl]
      simp [lineErrsFrom, okCards, hpl, List.append_assoc]
    | panic msg =>
      rw [hpl] at hl
      exact absurd hl (by simp [ParseResult.isPanic])

/-- `Forall₂` between two replicated lists of equal length. -/
theorem forall₂_replicate {α β : Type} {R : α → β → Prop} {a : α} {b : β}
    (h : R a b) (n : Nat) :
    List.Forall₂ R (List.replicate n a) (List.replicate n b) := by
  induction n with
  | zero => exact List.Forall₂.nil
  | succ n ih => exact List.Forall₂.cons h ih

end Marrow

namespace Marrow

/-- C2: for the input line `"x Goblin"`, which reaches the `Naming` state
with an empty quantity buffer, `parse_line` does not return a defined
error value: it panics (Rust `expect("couldn\x27t parse number")`).  The
claim (and the spec scenario) require a defined error here, so this is a
code bug. -/
theorem parse_line_empty_quantity_panics :
    parse_line "x Goblin" = ParseResult.panic "couldn\x27t parse number" := by
  decide

/-- C1 counterexample: deck indices are not zero-based.  For the parsed
lines `"3x Ogre"` then `"1x Donkey"`, the build yields three instances
with `card_id` 100 followed by one with `card_id` 200 — not 0 and 100 as
the claim states. -/
theorem card_ids_not_zero_based :
    parse_line "3x Ogre" = ParseResult.ok 3 (mkCardData "Ogre") ∧
    parse_line "1x Donkey" = ParseResult.ok 1 (mkCardData "Donkey") ∧
    (generate_deck_data [(3, mkCardData "Ogre"), (1, mkCardData "Donkey")]).1 =
      [100, 100, 100, 200] ∧
    (generate_deck_data [(3, mkCardData "Ogre"), (1, mkCardData "Donkey")]).1 ≠
      [0, 0, 0, 100] :=
  ⟨by decide, by decide, by decide, by decide⟩

/-- C1 (amended): deck indices are one-based in first-seen order (the Nth
entry gets deck index N) and every card instance's `card_id` equals
`100 ×` its deck index; for the input lines `"3x Ogre"` then
`"1x Donkey"` the build yields three instances with `card_id` 100
followed by one with `card_id` 200, in that order. -/
theorem card_ids_one_based :
    (∀ deck, (generate_deck_data deck).1 = deckIdsSpec 1 deck ∧
      ((generate_deck_data deck).2.2).map ObjectState.card_id =
        (deckIdsSpec 1 deck).map some) ∧
    ((generate_deck_data [(3, mkCardData "Ogre"), (1, mkCardData "Donkey")]).2.2).map
        ObjectState.card_id = [some 100, some 100, some 100, some 200] := by
  constructor
  · intro deck
    rw [generate_deck_data_eq]
    exact ⟨rfl, objsSpec_card_ids deck 1⟩
  · decide

/-- C3 counterexample: two lines naming the same card do not share one
record.  For the parsed lines `"1x Ogre"` and `"2x Ogre"` (one distinct
card identifier) the metadata map holds two records under two distinct
deck indices. -/
theorem metadata_records_duplicate_name :
    parse_line "1x Ogre" = ParseResult.ok 1 (mkCardData "Ogre") ∧
    parse_line "2x Ogre" = ParseResult.ok 2 (mkCardData "Ogre") ∧
    (generate_deck_data [(1, mkCardData "Ogre"), (2, mkCardData "Ogre")]).2.1 =
      [(1, mkCardData "Ogre"), (2, mkCardData "Ogre")] ∧
    ((generate_deck_data [(1, mkCardData "Ogre"), (2, mkCardData "Ogre")]).2.1).length ≠ 1 :=
  ⟨by decide, by decide, by decide, by decide⟩

/-- C3 (amended): the built document has exactly one `CardMetadataRecord`
per input line (entry), keyed by the line's one-based position, in input
order; lines repeating the same card identifier get separate records and
separate deck indices. -/
theorem metadata_records_per_line :
    ∀ deck : List (Int × CustomDeckState),
    ((generate_deck_data deck).2.1).length = deck.length ∧
    (generate_deck_data deck).2.1 =
      (List.enumFrom 1 deck).map (fun p => ((p.1 : Int), p.2.2)) := by
  intro deck
  have h := customDeckSpec_enumFrom deck 1
  rw [Nat.cast_one] at h
  rw [generate_deck_data_eq]
  refine ⟨?_, h⟩
  rw [h]
  simp

/-- C8: building a document from K entries with nonnegative quantities
q₁..q_K yields a metadata map of size exactly K and Σqᵢ card instances in
total; in particular a zero-quantity entry contributes no instance yet
still registers one record (it is counted in K). -/
theorem deck_data_sizes :
    ∀ deck : List (Int × CustomDeckState), (∀ p ∈ deck, (0 : Int) ≤ p.1) →
    ((generate_deck_data deck).2.1).length = deck.length ∧
    (((generate_deck_data deck).2.2).length : Int) = (deck.map Prod.fst).sum := by
  intro deck h
  have hcd := customDeckSpec_enumFrom deck 1
  rw [Nat.cast_one] at hcd
  rw [generate_deck_data_eq]
  constructor
  · rw [hcd]
    simp
  · rw [objsSpec_length deck 1]
    exact sum_toNat_eq deck h

/-- C8 witness: the deck with quantities 0 and 2 has two metadata
records and two card instances in total. -/
theorem deck_data_sizes_witness :
    ((generate_deck_data [((0 : Int), mkCardData "Ghost"),
      ((2 : Int), mkCardData "Imp")]).2.1).length = 2 ∧
    (((generate_deck_data [((0 : Int), mkCardData "Ghost"),
      ((2 : Int), mkCardData "Imp")]).2.2).length : Int) = 2 := by
  have h := deck_data_sizes
    [((0 : Int), mkCardData "Ghost"), ((2 : Int), mkCardData "Imp")] (by decide)
  exact ⟨h.1.trans (by decide), h.2.trans (by decide)⟩

/-- Entrywise alignment of the deck-id list with the contained card
objects: each id is the object's `card_id`, and the object's singleton
`CustomDeck` map is keyed by the deck index whose hundredfold is that
id. -/
theorem deckIds_objs_aligned (deck : List (Int × CustomDeckState)) :
    ∀ i, List.Forall₂ (fun id o => ObjectState.card_id o = some id ∧
        ∃ k c, ObjectState.custom_deck o = [(k, c)] ∧ id = k * 100)
      (deckIdsSpec i deck) (objsSpec i deck) := by
  induction deck with
  | nil => intro i; exact List.Forall₂.nil
  | cons hd tl ih =>
    obtain ⟨amt, card⟩ := hd
    intro i
    show List.Forall₂ _
      (List.replicate amt.toNat (i * 100) ++ deckIdsSpec (i + 1) tl)
      (List.replicate amt.toNat (cardObject i card) ++ objsSpec (i + 1) tl)
    exact List.rel_append (forall₂_replicate ⟨rfl, i, card, rfl, rfl⟩ amt.toNat)
      (ih (i + 1))

/-- C4 counterexample: a line of the claimed valid form `<n>x<name>`
whose digit string exceeds `i64::MAX` (here `2^63`) makes the parser
panic on `str::parse::<i64>` instead of succeeding with the pair. -/
theorem parse_line_overflow_panics :
    parse_line "9223372036854775808x A" =
      ParseResult.panic "couldn\x27t parse number" := by
  decide

/-- C4 (amended): for every line `<digits><ws>x<rest>` with a nonempty
digit string whose value is at most `i64::MAX` (2^63 − 1) and arbitrary
(possibly empty) space/tab whitespace before the separator, `parse_line`
succeeds and returns exactly the digit string's value paired with the
card data of the trimmed text after the separator (whitespace after the
separator is part of that text and is removed by the trim). -/
theorem parse_line_valid (digits ws rest : List Char)
    (h1 : digits ≠ [])
    (h2 : ∀ c ∈ digits, isAsciiDigit c = true)
    (h3 : ∀ c ∈ ws, c = ' ' ∨ c = '\t')
    (h4 : digitsVal digits ≤ 9223372036854775807) :
    parse_line (String.mk (digits ++ ws ++ 'x' :: rest)) =
      ParseResult.ok ((digitsVal digits : Nat) : Int)
        (mkCardData (rustTrim (String.mk rest))) := by
  have hloop : parseLoop (digits ++ ws ++ 'x' :: rest) 0
      ParserState.Numbering [] [] = Except.ok (digits, rest) := by
    have hmid := (parseLoop_ws_x ws rest (0 + digits.length) ([] ++ digits)
      [] h3).1
    have hall := (parseLoop_numbering_digits digits (ws ++ 'x' :: rest) 0
      [] [] h2).trans hmid
    simpa using hall
  unfold parse_line
  rw [show (String.mk (digits ++ ws ++ 'x' :: rest)).data =
    digits ++ ws ++ 'x' :: rest from rfl, hloop]
  simp only [parseI64_digits digits h1 h2 h4]

/-- C4 witness: `"2 x Knight"` (a space before the separator, a space
after it) parses to quantity 2 and the card for the trimmed name
`"Knight"`. -/
theorem parse_line_valid_witness :
    parse_line (String.mk (['2'] ++ [' '] ++ 'x' ::
        [' ', 'K', 'n', 'i', 'g', 'h', 't'])) =
      ParseResult.ok 2 (mkCardData "Knight") := by
  have h := parse_line_valid ['2'] [' '] [' ', 'K', 'n', 'i', 'g', 'h', 't']
    (by decide) (by decide) (by decide) (by decide)
  exact h.trans (by decide)

/-- C5 counterexample: the claim fails on both of its line classes.  The
line `"3"` is missing the separator yet `parse_line` succeeds (no syntax
error at all); and the line `"3 4a x"` contains the non-digit,
non-whitespace character `a` at 1-based offset 4 before the separator,
yet the reported error is at column 3 (the digit `4`, which the `Exing`
state rejects first). -/
theorem parse_line_missing_separator_ok :
    parse_line "3" = ParseResult.ok 3 (mkCardData "") ∧
    parse_line "3 4a x" = ParseResult.err ⟨Error.UnexpectedChar '4'
      ["`x` (number separator)", "space", "tab"], 3⟩ :=
  ⟨by decide, by decide⟩

/-- C5 (amended): `parse_line` returns a syntax error exactly when the
left-to-right scan rejects a character (any character other than a
digit, space, tab or `x` while reading the quantity; any character other
than a space, tab or `x` — including a digit — after whitespace but
before the separator), and the error's column equals the 1-based
character offset of that first rejected character (which coincides with
its byte offset, every earlier character being ASCII); lines the scan
never rejects — including separator-free lines of digits and
whitespace — yield no syntax error. -/
theorem parse_line_error_column :
    ∀ s : String,
    (∀ p, firstRejected s = some p → ∃ a exp,
      parse_line s = ParseResult.err ⟨Error.UnexpectedChar a exp, p + 1⟩) ∧
    (firstRejected s = none → ∀ e, parse_line s ≠ ParseResult.err e) := by
  intro s
  have h := parseLoop_scanReject s.data ParserState.Numbering 0 [] []
    (by simp)
  constructor
  · intro p hp
    obtain ⟨a, exp, ha⟩ := h.1 p hp
    refine ⟨a, exp, ?_⟩
    unfold parse_line
    rw [ha]
    simp
  · intro hn e
    obtain ⟨r, hr⟩ := h.2 hn
    unfold parse_line
    rw [hr]
    obtain ⟨num, name⟩ := r
    cases hpi : parseI64 (String.mk num) <;> simp [hpi]

/-- C5 witness: on `"3a"` the scan rejects `a` at character position 1
and the parser reports an error at column 2. -/
theorem parse_line_error_column_witness :
    firstRejected "3a" = some 1 ∧ ∃ a exp,
      parse_line "3a" = ParseResult.err ⟨Error.UnexpectedChar a exp, 2⟩ :=
  ⟨by decide, (parse_line_error_column "3a").1 1 (by decide)⟩

/-- C6: the rendered error report does not put the row in the position
labelled `line` — the Display implementation passes `self.column.column`
to the `line` slot and `self.row` to the `column` slot, so a failure at
row 2, column 5 (the second input line being `"1234?x"`) renders as
`"Error at line 5, column 2: ..."` instead of the claimed
`"Error at line 2, column 5: ..."`.  The format string's labels show the
swap is a slip, so this is a code bug. -/
theorem atrow_display_swapped :
    parse_line "1234?x" = ParseResult.err ⟨Error.UnexpectedChar '?'
      ["`x` (number separator)", "a number", "a space", "tab"], 5⟩ ∧
    AtRow.fmt ⟨⟨Error.UnexpectedChar '?' ["`x` (number separator)",
        "a number", "a space", "tab"], 5⟩, 2⟩ =
      "Error at line 5, column 2: \n Obtained character `?`, expected one of the following: \n - `x` (number separator)\n - a number\n - a space\n - tab" ∧
    AtRow.fmt ⟨⟨Error.UnexpectedChar '?' ["`x` (number separator)",
        "a number", "a space", "tab"], 5⟩, 2⟩ ≠
      "Error at line 2, column 5: \n Obtained character `?`, expected one of the following: \n - `x` (number separator)\n - a number\n - a space\n - tab" :=
  ⟨by decide, by decide, by decide⟩

/-- C7 counterexample: with input lines `"?"` (a syntax error at row 1)
followed by `""` (empty quantity buffer, which panics the quantity
parse), the run aborts in a panic: the collected error batch is never
reported even though a line produced a syntax error, contradicting the
claim's "parses all remaining lines and reports every collected error"
(nothing is written, but not by the claimed mechanism). -/
theorem run_panics_without_reporting :
    runOnLines ["?", ""] = RunResult.panicked "couldn\x27t parse number" ∧
    ∀ errs, runOnLines ["?", ""] ≠ RunResult.reported errs := by
  constructor
  · rfl
  · intro errs h
    rw [show runOnLines ["?", ""] =
      RunResult.panicked "couldn\x27t parse number" from rfl] at h
    exact RunResult.noConfusion h

/-- C7 (amended): provided no line panics the quantity parse (the empty
quantity-buffer code bug of C2), the run parses every line; if any line
produced a syntax error, all collected errors are reported as a batch in
input order with 1-based rows and nothing is written, and the document
is built and written exactly when the error list is empty. -/
theorem run_batches_errors :
    ∀ lines : List String,
    (∀ l ∈ lines, (parse_line l).isPanic = false) →
    runOnLines lines =
      (if (lineErrsFrom 1 lines).isEmpty then
        RunResult.wrote (SaveState.new_for_deck (okCards lines))
      else RunResult.reported (lineErrsFrom 1 lines)) := by
  intro lines h
  unfold runOnLines
  rw [runLoop_spec lines 1 [] [] h]
  simp

/-- C7 witness: lines `"1x A"` and `"?x B"` (no panic, one syntax error)
are both parsed and the single collected error is reported (row 2,
column 1); nothing is written. -/
theorem run_batches_errors_witness :
    runOnLines ["1x A", "?x B"] = RunResult.reported
      [⟨⟨Error.UnexpectedChar '?' ["`x` (number separator)", "a number",
        "a space", "tab"], 1⟩, 2⟩] := by
  have h := run_batches_errors ["1x A", "?x B"] (by decide)
  exact h.trans (by rfl)

/-- C10: the card metadata produced for a successfully parsed line is a
deterministic function of the trimmed name buffer alone (`mkCardData`):
`back_url` is the one fixed constant URL shared by all cards,
`num_width` and `num_height` are both 1, and `face_url` is the fixed
template URL with the trimmed name embedded after deleting every space
character and replacing every `ä` with `a`. -/
theorem card_metadata_from_name :
    ∀ (s : String) (n : Int) (card : CustomDeckState),
    parse_line s = ParseResult.ok n card →
    ∃ num name, parseLoop s.data 0 ParserState.Numbering [] [] =
        Except.ok (num, name) ∧
      card = mkCardData (rustTrim (String.mk name)) ∧
      card.back_url =
        "https://file.garden/ZJSEzoaUL3bz8vYK/bloodlesscards/00%20back.png" ∧
      card.num_width = 1 ∧ card.num_height = 1 ∧
      card.face_url = "https://file.garden/ZJSEzoaUL3bz8vYK/bloodlesscards/"
        ++ String.mk (((rustTrim (String.mk name)).data.filter
          (fun c => !(c = ' '))).map (fun c => if c = 'ä' then 'a' else c))
        ++ ".png" := by
  intro s n card h
  unfold parse_line at h
  cases hpl : parseLoop s.data 0 ParserState.Numbering [] [] with
  | error e =>
    rw [hpl] at h
    exact absurd h (by simp)
  | ok r =>
    obtain ⟨num, name⟩ := r
    rw [hpl] at h
    cases hpi : parseI64 (String.mk num) with
    | none =>
      simp [hpi] at h
    | some m =>
      simp only [hpi, ParseResult.ok.injEq] at h
      obtain ⟨rfl, rfl⟩ := h
      exact ⟨num, name, rfl, rfl, rfl, rfl, rfl, rfl⟩

/-- C10 witness: `"2x Kn ight"` parses to the card whose metadata is
derived from the trimmed name `"Kn ight"`; its face URL embeds
`Knight` (internal space deleted). -/
theorem card_metadata_from_name_witness :
    ∃ num name, parseLoop ("2x Kn ight" : String).data 0
        ParserState.Numbering [] [] = Except.ok (num, name) ∧
      mkCardData "Kn ight" = mkCardData (rustTrim (String.mk name)) ∧
      (mkCardData "Kn ight").back_url =
        "https://file.garden/ZJSEzoaUL3bz8vYK/bloodlesscards/00%20back.png" ∧
      (mkCardData "Kn ight").num_width = 1 ∧
      (mkCardData "Kn ight").num_height = 1 ∧
      (mkCardData "Kn ight").face_url =
        "https://file.garden/ZJSEzoaUL3bz8vYK/bloodlesscards/"
        ++ String.mk (((rustTrim (String.mk name)).data.filter
          (fun c => !(c = ' '))).map (fun c => if c = 'ä' then 'a' else c))
        ++ ".png" :=
  card_metadata_from_name "2x Kn ight" 2 (mkCardData "Kn ight") (by decide)

/-- C9: for every input deck, the container's `DeckIDs` and
`ContainedObjects` lists have the same length; the i-th deck id equals
the i-th contained card's `card_id`; and each contained card's
`CustomDeck` map contains exactly the one metadata record, keyed by that
card's deck index (`card_id / 100`). -/
theorem deck_ids_match_contained :
    ∀ deck : List (Int × CustomDeckState),
    (generate_deck_data deck).1.length = ((generate_deck_data deck).2.2).length ∧
    List.Forall₂ (fun id o => ObjectState.card_id o = some id ∧
        ∃ k c, ObjectState.custom_deck o = [(k, c)] ∧ id = k * 100)
      (generate_deck_data deck).1 ((generate_deck_data deck).2.2) := by
  intro deck
  have hf := deckIds_objs_aligned deck 1
  rw [generate_deck_data_eq]
  exact ⟨hf.length_eq, hf⟩

end Marrow
